import Mathlib

/-!
Verification of the `StressTensor` class (Stress.py).

The six stress components are modelled as real numbers. Stateful Python
methods (`applyComponentKt`) are modelled as functions returning the updated
state; Python exceptions (`ValueError` from tuple unpacking, `AttributeError`
from attribute access) are modelled with `Except String`. The external
eigensolver `np.linalg.eigvals`, applied to the symmetric stress matrix, is
modelled by Mathlib's eigenvalues of a Hermitian real matrix, listed in some
solver order.
-/

noncomputable section

/-- The value type: six independent components of a symmetric stress tensor. -/
@[ext]
structure StressTensor where
  sx : ℝ
  sy : ℝ
  sz : ℝ
  sxy : ℝ
  syz : ℝ
  szx : ℝ

namespace StressTensor

/-- `stressComponents`: the six components in the fixed order
sx, sy, sz, sxy, syz, szx. -/
def stressComponents (t : StressTensor) : List ℝ :=
  [t.sx, t.sy, t.sz, t.sxy, t.syz, t.szx]

/-- `stressTensor`: the 3x3 matrix
[[sx, sxy, szx], [sxy, sy, syz], [szx, syz, sz]]. -/
def stressTensor (t : StressTensor) : Matrix (Fin 3) (Fin 3) ℝ :=
  Matrix.of ![![t.sx, t.sxy, t.szx], ![t.sxy, t.sy, t.syz], ![t.szx, t.syz, t.sz]]

/-- The stress matrix is Hermitian (real symmetric), so the eigensolver
contract for symmetric matrices applies to it. -/
def stressTensor_herm (t : StressTensor) : (stressTensor t).IsHermitian := by
  show Matrix.conjTranspose (stressTensor t) = stressTensor t
  ext i j
  fin_cases i <;> fin_cases j <;>
    simp [stressTensor, Matrix.conjTranspose_apply]

/-- Model of `np.linalg.eigvals(self.stressTensor)`: the real eigenvalues of
the symmetric stress matrix, as a three-element list in solver order. -/
def eigvals (t : StressTensor) : List ℝ :=
  List.ofFn (Matrix.IsHermitian.eigenvalues (stressTensor_herm t))

/-- `principals`: eigenvalues of the stress matrix. -/
def principals (t : StressTensor) : List ℝ :=
  eigvals t

/-- Python's builtin `min` on a list (the empty case raises in Python and is
unreachable here, since `principals` always has three elements). -/
def pymin : List ℝ → ℝ
  | [] => 0
  | x :: xs => xs.foldl min x

/-- Python's builtin `max` on a list (empty case unreachable, as for `pymin`). -/
def pymax : List ℝ → ℝ
  | [] => 0
  | x :: xs => xs.foldl max x

/-- The first `firstPrincipal` definition in the class body (`max(principals)`).
In Python a later class-body definition with the same name replaces the earlier
one in the class dict, so this accessor is unreachable on the class. -/
def firstPrincipal_shadowed (t : StressTensor) : ℝ :=
  pymax (principals t)

/-- `firstPrincipal` as actually bound on the class: the second definition with
that name wins, returning `min(self.principals)`. -/
def firstPrincipal (t : StressTensor) : ℝ :=
  pymin (principals t)

/-- Python tuple unpacking of a sequence into two targets: succeeds exactly on
two-element sequences, otherwise raises ValueError. -/
def unpack2 {α : Type} : List α → Except String (α × α)
  | [a, b] => Except.ok (a, b)
  | _ => Except.error "ValueError"

/-- `eigenVector` as written: `val, vect = np.linalg.eigvals(self.stressTensor)`
then `return vect`. `eigvals` returns the three eigenvalues only, so the
unpacking into two targets is modelled by `unpack2`. -/
def eigenVector (t : StressTensor) : Except String ℝ :=
  Except.map Prod.snd (unpack2 (eigvals t))

/-- `HuberStress`:
sqrt(0.5*((sx-sy)^2 + (sy-sz)^2 + (sz-sx)^2) + 3*(sxy^2 + syz^2 + szx^2)). -/
def HuberStress (t : StressTensor) : ℝ :=
  Real.sqrt (0.5 * ((t.sx - t.sy) ^ 2 + (t.sy - t.sz) ^ 2 + (t.sz - t.sx) ^ 2)
    + 3 * (t.sxy ^ 2 + t.syz ^ 2 + t.szx ^ 2))

/-- `applyComponentKt`: multiplies each component in place by its factor.
The mutation of `self` is modelled by returning the updated tensor. -/
def applyComponentKt (t : StressTensor)
    (KTx KTy KTz KTxy KTyz KTZX : ℝ) : StressTensor :=
  { sx := t.sx * KTx
    sy := t.sy * KTy
    sz := t.sz * KTz
    sxy := t.sxy * KTxy
    syz := t.syz * KTyz
    szx := t.szx * KTZX }

/-- The static helper `_calcMises`:
sqrt((x-y)^2 + (y-z)^2 + (z-x)^2 + 6*(xy^2 + yz^2 + zx^2)). -/
def _calcMises (x y z xy yz zx : ℝ) : ℝ :=
  Real.sqrt ((x - y) ^ 2 + (y - z) ^ 2 + (z - x) ^ 2
    + 6 * (xy ^ 2 + yz ^ 2 + zx ^ 2))

/-- `calculateWalker`: per-component means and alternating parts of the two
tensors, then `sm` and `sa` as in the source, where
`np.sign([x, y, z]) * np.sqrt(2)/2 * mises` broadcasts to a three-element
array. Only `sa` is returned; `sm` is computed and discarded. -/
def calculateWalker (a b : StressTensor) : ℝ × ℝ × ℝ :=
  let sm_comp := List.zipWith (fun cmp1 cmp2 => (cmp1 + cmp2) / 2)
    a.stressComponents b.stressComponents
  let sa_comp := List.zipWith (fun cmp1 cmp2 => (cmp1 - cmp2) / 2)
    a.stressComponents b.stressComponents
  match sm_comp, sa_comp with
  | [s_mx, s_my, s_mz, s_mxy, s_myz, s_mzx],
    [s_ax, s_ay, s_az, s_axy, s_ayz, s_azx] =>
    let sm := (Real.sign s_mx * Real.sqrt 2 / 2
                 * _calcMises s_mx s_my s_mz s_mxy s_myz s_mzx,
               Real.sign s_my * Real.sqrt 2 / 2
                 * _calcMises s_mx s_my s_mz s_mxy s_myz s_mzx,
               Real.sign s_mz * Real.sqrt 2 / 2
                 * _calcMises s_mx s_my s_mz s_mxy s_myz s_mzx)
    let sa := (Real.sign s_ax * Real.sqrt 2 / 2
                 * _calcMises s_ax s_ay s_az s_axy s_ayz s_azx,
               Real.sign s_ay * Real.sqrt 2 / 2
                 * _calcMises s_ax s_ay s_az s_axy s_ayz s_azx,
               Real.sign s_az * Real.sqrt 2 / 2
                 * _calcMises s_ax s_ay s_az s_axy s_ayz s_azx)
    sa
  | _, _ => (0, 0, 0)

/-- `__add__`: component-wise sum into a new instance. -/
def add (a b : StressTensor) : StressTensor :=
  { sx := a.sx + b.sx
    sy := a.sy + b.sy
    sz := a.sz + b.sz
    sxy := a.sxy + b.sxy
    syz := a.syz + b.syz
    szx := a.szx + b.szx }

instance : Add StressTensor :=
  ⟨add⟩

end StressTensor

/-- A Python operand of `==`: an object that may or may not expose each of the
six component attributes. -/
structure PyObj where
  sx? : Option ℝ
  sy? : Option ℝ
  sz? : Option ℝ
  sxy? : Option ℝ
  syz? : Option ℝ
  szx? : Option ℝ

/-- Python attribute access: the value when present, AttributeError otherwise. -/
def getattr (v : Option ℝ) (name : String) : Except String ℝ :=
  match v with
  | some x => Except.ok x
  | none => Except.error ("AttributeError: " ++ name)

namespace StressTensor

/-- `__eq__`: the chained `and` of the six component comparisons, with Python's
left-to-right short-circuit evaluation; each `value.<attr>` access may raise. -/
def pyEq (t : StressTensor) (v : PyObj) : Except String Bool :=
  match getattr v.sx? "sx" with
  | Except.error e => Except.error e
  | Except.ok vx =>
    if t.sx = vx then
      match getattr v.sy? "sy" with
      | Except.error e => Except.error e
      | Except.ok vy =>
        if t.sy = vy then
          match getattr v.sz? "sz" with
          | Except.error e => Except.error e
          | Except.ok vz =>
            if t.sz = vz then
              match getattr v.sxy? "sxy" with
              | Except.error e => Except.error e
              | Except.ok vxy =>
                if t.sxy = vxy then
                  match getattr v.syz? "syz" with
                  | Except.error e => Except.error e
                  | Except.ok vyz =>
                    if t.syz = vyz then
                      match getattr v.szx? "szx" with
                      | Except.error e => Except.error e
                      | Except.ok vzx =>
                        if t.szx = vzx then Except.ok true
                        else Except.ok false
                    else Except.ok false
                else Except.ok false
            else Except.ok false
        else Except.ok false
    else Except.ok false

end StressTensor

namespace StressTensor

lemma foldl_min_le_init (x : ℝ) (xs : List ℝ) : xs.foldl min x ≤ x := by
  induction xs generalizing x with
  | nil => exact le_refl x
  | cons y ys ih =>
    rw [List.foldl_cons]
    exact le_trans (ih (min x y)) (min_le_left x y)

lemma foldl_min_mem (x : ℝ) (xs : List ℝ) : xs.foldl min x ∈ x :: xs := by
  induction xs generalizing x with
  | nil => simp
  | cons y ys ih =>
    rw [List.foldl_cons]
    rcases List.mem_cons.1 (ih (min x y)) with h | h
    · rcases min_choice x y with h1 | h1
      · rw [h, h1]
        exact List.mem_cons_self _ _
      · rw [h, h1]
        exact List.mem_cons_of_mem _ (List.mem_cons_self _ _)
    · exact List.mem_cons_of_mem _ (List.mem_cons_of_mem _ h)

lemma foldl_min_le (x : ℝ) (xs : List ℝ) (y : ℝ) (hy : y ∈ x :: xs) :
    xs.foldl min x ≤ y := by
  induction xs generalizing x with
  | nil =>
    simp only [List.mem_singleton] at hy
    rw [List.foldl_nil]
    exact hy.ge
  | cons z zs ih =>
    rw [List.foldl_cons]
    rcases List.mem_cons.1 hy with h | h
    · subst h
      exact le_trans (foldl_min_le_init _ _) (min_le_left _ _)
    · rcases List.mem_cons.1 h with h2 | h2
      · subst h2
        exact le_trans (foldl_min_le_init _ _) (min_le_right _ _)
      · exact ih (min x z) (List.mem_cons_of_mem _ h2)

lemma pymin_spec (l : List ℝ) (h : l ≠ []) :
    pymin l ∈ l ∧ ∀ y ∈ l, pymin l ≤ y := by
  cases l with
  | nil => exact absurd rfl h
  | cons x xs => exact ⟨foldl_min_mem x xs, fun y hy => foldl_min_le x xs y hy⟩

lemma principals_length (t : StressTensor) : (principals t).length = 3 := by
  simp [principals, eigvals]

lemma principals_ne_nil (t : StressTensor) : principals t ≠ [] := by
  intro h
  have := principals_length t
  rw [h] at this
  simp at this

lemma sq_zero_of_sq_nonpos {a : ℝ} (h : a ^ 2 ≤ 0) : a = 0 := by
  have h2 : a ^ 2 = 0 := le_antisymm h (sq_nonneg a)
  exact (pow_eq_zero_iff (by norm_num)).mp h2

lemma calculateWalker_eq (a b : StressTensor) :
    calculateWalker a b =
      (Real.sign ((a.sx - b.sx) / 2) * Real.sqrt 2 / 2
         * _calcMises ((a.sx - b.sx) / 2) ((a.sy - b.sy) / 2) ((a.sz - b.sz) / 2)
             ((a.sxy - b.sxy) / 2) ((a.syz - b.syz) / 2) ((a.szx - b.szx) / 2),
       Real.sign ((a.sy - b.sy) / 2) * Real.sqrt 2 / 2
         * _calcMises ((a.sx - b.sx) / 2) ((a.sy - b.sy) / 2) ((a.sz - b.sz) / 2)
             ((a.sxy - b.sxy) / 2) ((a.syz - b.syz) / 2) ((a.szx - b.szx) / 2),
       Real.sign ((a.sz - b.sz) / 2) * Real.sqrt 2 / 2
         * _calcMises ((a.sx - b.sx) / 2) ((a.sy - b.sy) / 2) ((a.sz - b.sz) / 2)
             ((a.sxy - b.sxy) / 2) ((a.syz - b.syz) / 2) ((a.szx - b.szx) / 2)) :=
  rfl

/-- C1: for every pair of tensors `a`, `b`, `calculateWalker` forms the
per-component means `(a_i + b_i)/2` and alternating parts `sa_i = (a_i - b_i)/2`
and returns only the alternating equivalent stress
`sign([sa_x, sa_y, sa_z]) * (sqrt 2 / 2) * _calcMises sa_x sa_y sa_z sa_xy sa_yz sa_zx`
(broadcast over the three-element sign vector); the mean equivalent `sm` is
computed but not returned. -/
theorem calculateWalker_returns_signed_alternating (a b : StressTensor) :
    calculateWalker a b =
      (Real.sign ((a.sx - b.sx) / 2) * Real.sqrt 2 / 2
         * _calcMises ((a.sx - b.sx) / 2) ((a.sy - b.sy) / 2) ((a.sz - b.sz) / 2)
             ((a.sxy - b.sxy) / 2) ((a.syz - b.syz) / 2) ((a.szx - b.szx) / 2),
       Real.sign ((a.sy - b.sy) / 2) * Real.sqrt 2 / 2
         * _calcMises ((a.sx - b.sx) / 2) ((a.sy - b.sy) / 2) ((a.sz - b.sz) / 2)
             ((a.sxy - b.sxy) / 2) ((a.syz - b.syz) / 2) ((a.szx - b.szx) / 2),
       Real.sign ((a.sz - b.sz) / 2) * Real.sqrt 2 / 2
         * _calcMises ((a.sx - b.sx) / 2) ((a.sy - b.sy) / 2) ((a.sz - b.sz) / 2)
             ((a.sxy - b.sxy) / 2) ((a.syz - b.syz) / 2) ((a.szx - b.szx) / 2)) :=
  calculateWalker_eq a b

/-- C2: since the second class-body definition of `firstPrincipal` overrides the
first, the accessor returns the minimum of `principals` for every tensor: its
value is a member of `principals` and a lower bound of all of them. -/
theorem firstPrincipal_is_min (t : StressTensor) :
    firstPrincipal t ∈ principals t ∧ ∀ x ∈ principals t, firstPrincipal t ≤ x :=
  pymin_spec (principals t) (principals_ne_nil t)

/-- Witness for C2 at a concrete tensor: the membership hypothesis of the
lower-bound part is discharged by the membership part itself. -/
theorem firstPrincipal_is_min_witness :
    firstPrincipal ⟨1, 2, 3, 0, 0, 0⟩ ≤ firstPrincipal ⟨1, 2, 3, 0, 0, 0⟩ :=
  (firstPrincipal_is_min ⟨1, 2, 3, 0, 0, 0⟩).2 _
    (firstPrincipal_is_min ⟨1, 2, 3, 0, 0, 0⟩).1

/-- C3: `HuberStress` is invariant under a uniform hydrostatic shift of the
three normal components by any scalar `k`. -/
theorem HuberStress_hydrostatic_invariant (t : StressTensor) (k : ℝ) :
    HuberStress
        { sx := t.sx + k, sy := t.sy + k, sz := t.sz + k,
          sxy := t.sxy, syz := t.syz, szx := t.szx }
      = HuberStress t := by
  simp only [HuberStress]
  congr 1
  ring

/-- C4: the claim says `eigenVector` returns the eigenvector matrix matching
`principals`; the code instead unpacks the three-element eigenvalue array of
`np.linalg.eigvals` into two targets, which raises ValueError for every
tensor, so `eigenVector` never returns a value. -/
theorem eigenVector_raises (t : StressTensor) :
    eigenVector t = Except.error "ValueError" := by
  unfold eigenVector eigvals
  rw [List.ofFn_succ, List.ofFn_succ, List.ofFn_succ, List.ofFn_zero]
  rfl

/-- C5: the 3x3 matrix returned by `stressTensor` is symmetric in its two
indices. -/
theorem stressTensor_symmetric (t : StressTensor) (i j : Fin 3) :
    stressTensor t i j = stressTensor t j i := by
  fin_cases i <;> fin_cases j <;> simp [stressTensor]

/-- C6: `HuberStress` is always non-negative, and it is zero exactly when the
three normal components are all equal and the three shear components are all
zero. -/
theorem HuberStress_nonneg_and_zero_iff (t : StressTensor) :
    0 ≤ HuberStress t ∧
      (HuberStress t = 0 ↔
        (t.sx = t.sy ∧ t.sy = t.sz ∧ t.sxy = 0 ∧ t.syz = 0 ∧ t.szx = 0)) := by
  constructor
  · exact Real.sqrt_nonneg _
  · unfold HuberStress
    rw [Real.sqrt_eq_zero']
    constructor
    · intro h
      have hxy : t.sx - t.sy = 0 := sq_zero_of_sq_nonpos (by
        nlinarith [sq_nonneg (t.sy - t.sz), sq_nonneg (t.sz - t.sx),
          sq_nonneg t.sxy, sq_nonneg t.syz, sq_nonneg t.szx])
      have hyz : t.sy - t.sz = 0 := sq_zero_of_sq_nonpos (by
        nlinarith [sq_nonneg (t.sx - t.sy), sq_nonneg (t.sz - t.sx),
          sq_nonneg t.sxy, sq_nonneg t.syz, sq_nonneg t.szx])
      have h3 : t.sxy = 0 := sq_zero_of_sq_nonpos (by
        nlinarith [sq_nonneg (t.sx - t.sy), sq_nonneg (t.sy - t.sz),
          sq_nonneg (t.sz - t.sx), sq_nonneg t.syz, sq_nonneg t.szx])
      have h4 : t.syz = 0 := sq_zero_of_sq_nonpos (by
        nlinarith [sq_nonneg (t.sx - t.sy), sq_nonneg (t.sy - t.sz),
          sq_nonneg (t.sz - t.sx), sq_nonneg t.sxy, sq_nonneg t.szx])
      have h5 : t.szx = 0 := sq_zero_of_sq_nonpos (by
        nlinarith [sq_nonneg (t.sx - t.sy), sq_nonneg (t.sy - t.sz),
          sq_nonneg (t.sz - t.sx), sq_nonneg t.sxy, sq_nonneg t.syz])
      exact ⟨sub_eq_zero.mp hxy, sub_eq_zero.mp hyz, h3, h4, h5⟩
    · rintro ⟨h1, h2, h3, h4, h5⟩
      rw [h1, h2, h3, h4, h5]
      norm_num

/-- Witness for C6: applying the iff at an isotropic tensor gives a concrete
zero Huber stress. -/
theorem HuberStress_nonneg_and_zero_iff_witness :
    HuberStress ⟨5, 5, 5, 0, 0, 0⟩ = 0 :=
  (HuberStress_nonneg_and_zero_iff ⟨5, 5, 5, 0, 0, 0⟩).2.mpr
    ⟨rfl, rfl, rfl, rfl, rfl⟩

/-- C7: combining a tensor with itself yields an alternating equivalent stress
of zero: every alternating component is zero, so the result is the zero
triple. -/
theorem calculateWalker_self_zero (t : StressTensor) :
    calculateWalker t t = (0, 0, 0) := by
  rw [calculateWalker_eq]
  simp [Real.sign_zero]

/-- C8: `applyComponentKt` with all six factors equal to one leaves the tensor
unchanged, and a factor `k` on the first component alone multiplies `sx` by
`k` while the other five components are unchanged. -/
theorem applyComponentKt_identity_and_scale (t : StressTensor) (k : ℝ) :
    applyComponentKt t 1 1 1 1 1 1 = t ∧
      (applyComponentKt t k 1 1 1 1 1).sx = k * t.sx ∧
      (applyComponentKt t k 1 1 1 1 1).sy = t.sy ∧
      (applyComponentKt t k 1 1 1 1 1).sz = t.sz ∧
      (applyComponentKt t k 1 1 1 1 1).sxy = t.sxy ∧
      (applyComponentKt t k 1 1 1 1 1).syz = t.syz ∧
      (applyComponentKt t k 1 1 1 1 1).szx = t.szx := by
  refine ⟨?_, ?_, ?_, ?_, ?_, ?_, ?_⟩
  · ext <;> simp [applyComponentKt]
  all_goals simp [applyComponentKt, mul_comm]

/-- C9: `+` builds a new tensor whose six components are the component-wise
sums of the operands; the operation is pure, so neither operand is mutated. -/
theorem add_componentwise (a b : StressTensor) :
    (a + b).sx = a.sx + b.sx ∧ (a + b).sy = a.sy + b.sy ∧
      (a + b).sz = a.sz + b.sz ∧ (a + b).sxy = a.sxy + b.sxy ∧
      (a + b).syz = a.syz + b.syz ∧ (a + b).szx = a.szx + b.szx :=
  ⟨rfl, rfl, rfl, rfl, rfl, rfl⟩

/-- C10 counterexample: an operand that exposes only `sx` (with a value
differing from the receiver's) and lacks the other five attributes makes
`__eq__` return False via short-circuiting, not raise an attribute error, so
the claim that such comparisons never return False is wrong. -/
theorem pyEq_missing_attr_counterexample :
    pyEq ⟨0, 0, 0, 0, 0, 0⟩ ⟨some 1, none, none, none, none, none⟩
      = Except.ok false := by
  norm_num [pyEq, getattr]

/-- C10 amended: when the operand lacks an attribute, `__eq__` raises an
attribute-access error exactly in case every earlier attribute in the order
sx, sy, sz, sxy, syz, szx is present and equal to the receiver's component;
in particular an operand lacking `sx` always raises. If an earlier attribute
is present but unequal, the chained `and` short-circuits and returns False. -/
theorem pyEq_missing_attr_behavior (t : StressTensor) (v : PyObj) :
    (v.sx? = none → pyEq t v = Except.error "AttributeError: sx") ∧
    (∀ x, v.sx? = some x → t.sx = x → v.sy? = none →
      pyEq t v = Except.error "AttributeError: sy") ∧
    (∀ x y, v.sx? = some x → t.sx = x → v.sy? = some y → t.sy = y →
      v.sz? = none → pyEq t v = Except.error "AttributeError: sz") ∧
    (∀ x y z, v.sx? = some x → t.sx = x → v.sy? = some y → t.sy = y →
      v.sz? = some z → t.sz = z → v.sxy? = none →
      pyEq t v = Except.error "AttributeError: sxy") ∧
    (∀ x y z w, v.sx? = some x → t.sx = x → v.sy? = some y → t.sy = y →
      v.sz? = some z → t.sz = z → v.sxy? = some w → t.sxy = w →
      v.syz? = none → pyEq t v = Except.error "AttributeError: syz") ∧
    (∀ x y z w u, v.sx? = some x → t.sx = x → v.sy? = some y → t.sy = y →
      v.sz? = some z → t.sz = z → v.sxy? = some w → t.sxy = w →
      v.syz? = some u → t.syz = u → v.szx? = none →
      pyEq t v = Except.error "AttributeError: szx") := by
  refine ⟨?_, ?_, ?_, ?_, ?_, ?_⟩
  · intro h
    simp [pyEq, getattr, h]
  · intro x hx hex hy
    simp [pyEq, getattr, hx, hex, hy]
  · intro x y hx hex hy hey hz
    simp [pyEq, getattr, hx, hex, hy, hey, hz]
  · intro x y z hx hex hy hey hz hez hxy
    simp [pyEq, getattr, hx, hex, hy, hey, hz, hez, hxy]
  · intro x y z w hx hex hy hey hz hez hxy hexy hyz
    simp [pyEq, getattr, hx, hex, hy, hey, hz, hez, hxy, hexy, hyz]
  · intro x y z w u hx hex hy hey hz hez hxy hexy hyz heyz hzx
    simp [pyEq, getattr, hx, hex, hy, hey, hz, hez, hxy, hexy, hyz, heyz, hzx]

/-- Witness for C10's amended theorem: an operand with no attributes at all
raises on the first access. -/
theorem pyEq_missing_attr_behavior_witness :
    pyEq ⟨0, 0, 0, 0, 0, 0⟩ ⟨none, none, none, none, none, none⟩
      = Except.error "AttributeError: sx" :=
  (pyEq_missing_attr_behavior ⟨0, 0, 0, 0, 0, 0⟩
    ⟨none, none, none, none, none, none⟩).1 rfl

end StressTensor

end
